import Mathlib

/-!
Shallow embedding of `tower-balance/src/load/pending_requests.rs`.

The source decorates a `Service` with a pending-request counter: a shared
`RefCount(Arc<()>)` cell whose strong count is 1 (the decorator's own
reference) plus one per live `Handle`.  `call` clones the cell into a fresh
`Handle` that travels with the dispatched future; dropping the handle
(on completion under `NoInstrument`, on future drop, or when the caller
drops a handle returned by a pass-through instrument) decrements the strong
count.  `load()` reads `Arc::strong_count - 1`.

Modelling conventions:
- `usize` values are `Nat`.  Rust's `-` on `usize` is overflow-checked
  (underflow is a panic, not a value), so the fallible subtraction in
  `load` is embedded as an `Option`: `none` models the underflow panic.
- `Poll<T, E>` (futures 0.1) is `Except E (Async T)`.
- The `Arc` strong count of the shared cell is modelled explicitly as a
  `Nat` carried in the states below; `Arc` guarantees clone increments it
  by one and drop decrements it by one.
-/

namespace Tower

/-- `futures::Async`: a poll either yields a value or is not ready. -/
inductive Async (α : Type u) : Type u
  | ready (a : α) : Async α
  | notReady : Async α
deriving DecidableEq, Repr

/-- `tower_discover::Change`: a discovery event, `Insert(key, service)` or
`Remove(key)` (`pending_requests.rs` lines 148-157 matches on these). -/
inductive Change (K : Type u) (S : Type v) : Type (max u v)
  | insert (k : K) (svc : S) : Change K S
  | remove (k : K) : Change K S
deriving DecidableEq, Repr

/-- `Count(usize)` (line 40): the load metric, number of pending requests. -/
structure Count where
  val : Nat
deriving DecidableEq, Repr

namespace RefCount

/-- `RefCount::default()` (used by `PendingRequests::new`, line 51):
`Arc::new(())` starts with strong count 1. -/
def default : Nat := 1

/-- Effect of `RefCount::clone` (used by `handle()`, line 75) on the shared
cell's strong count: `Arc::clone` increments it by one. -/
def clone (c : Nat) : Nat := c + 1

/-- Effect of dropping one `RefCount` clone (a `Handle`, line 43) on the
shared cell's strong count: `Arc`'s drop decrements it by one. -/
def drop (c : Nat) : Nat := c - 1

/-- `RefCount::ref_count` (lines 163-165): `Arc::strong_count(&self.0)`,
a read of the current strong count. -/
def ref_count (c : Nat) : Nat := c

end RefCount

/-- Modelled from the spec: the `Instrument` strategy trait lives in the
missing sibling module (`super::{Instrument, NoInstrument}`).  Per spec
section 4.2 the behaviour relevant to the counter is whether the transform
discards the handle at completion (no-op variant, the default) or returns
it to the caller (pass-through variant, `IntoHandle` in the source tests,
lines 210-216). -/
inductive Instrument : Type
  | noInstrument : Instrument
  | passThrough : Instrument
deriving DecidableEq, Repr

/-- `PendingRequests<S, M>` (lines 12-20): the inner service, the shared
cell (represented by its strong count), and the instrumentation strategy
type parameter `M` (a `PhantomData` in the source, carried here as a
value). -/
structure PendingRequests (S : Type u) : Type u where
  service : S
  ref_count : Nat
  instrumentM : Instrument
deriving DecidableEq, Repr

/-- `WithPendingRequests<D, M>` (lines 29-36): the wrapped discovery stream
and the configured instrumentation strategy type parameter. -/
structure WithPendingRequests (D : Type u) : Type u where
  discover : D
  instrumentM : Instrument
deriving DecidableEq, Repr

/-- The subtraction in `load` (line 88): `ref_count() - 1` on `usize`.
Underflow (count 0) is a checked-arithmetic failure, modelled as `none`. -/
def loadFromRefCount (c : Nat) : Option Count :=
  if c = 0 then none else some ⟨c - 1⟩

namespace PendingRequests

/-- `PendingRequests::new` (lines 48-54): wraps a service with a fresh
default cell and the default `NoInstrument` strategy. -/
def new {S : Type u} (service : S) : PendingRequests S :=
  ⟨service, RefCount.default, Instrument.noInstrument⟩

/-- `PendingRequests::with_instrument::<M>` (lines 57-66): moves the same
service and the same shared cell into a decorator with strategy `M`. -/
def with_instrument {S : Type u} (p : PendingRequests S) (M : Instrument) :
    PendingRequests S :=
  ⟨p.service, p.ref_count, M⟩

/-- `PendingRequests::load` (lines 86-89):
`Count(self.ref_count.ref_count() - 1)`. -/
def load {S : Type u} (p : PendingRequests S) : Option Count :=
  loadFromRefCount (RefCount.ref_count p.ref_count)

/-- `load` takes `&self`; in state-passing form it returns the metric
together with the receiver, which it cannot mutate (the only operation it
performs is the `Arc::strong_count` read). -/
def loadOp {S : Type u} (p : PendingRequests S) :
    Option Count × PendingRequests S :=
  (p.load, p)

/-- `PendingRequests::poll_ready` (lines 102-104): `self.service.poll_ready()`.
The inner service's `poll_ready` is an abstract state transformer on `S`
returning `Poll<(), S::Error>`; the decorator applies it to the inner
service and touches nothing else. -/
def poll_ready {S : Type u} {E : Type v}
    (inner : S → Except E (Async Unit) × S) (p : PendingRequests S) :
    Except E (Async Unit) × PendingRequests S :=
  ((inner p.service).1, ⟨(inner p.service).2, p.ref_count, p.instrumentM⟩)

end PendingRequests

namespace WithPendingRequests

/-- `WithPendingRequests::new` (lines 117-122): default `NoInstrument`. -/
def new {D : Type u} (discover : D) : WithPendingRequests D :=
  ⟨discover, Instrument.noInstrument⟩

/-- `WithPendingRequests::instrument::<M>` (lines 124-132): same discover,
new strategy type parameter. -/
def instrument {D : Type u} (w : WithPendingRequests D) (M : Instrument) :
    WithPendingRequests D :=
  ⟨w.discover, M⟩

/-- `WithPendingRequests::poll` (lines 148-157) as a function of the result
of polling the underlying discover stream: `try_ready!` propagates `Err`
and `NotReady`; `Insert(k, svc)` becomes
`Insert(k, PendingRequests::new(svc).with_instrument())` with the
configured strategy `M`; `Remove(k)` is re-emitted unchanged. -/
def poll {D : Type u} {K : Type v} {S : Type w} {E : Type x}
    (wpr : WithPendingRequests D) (r : Except E (Async (Change K S))) :
    Except E (Async (Change K (PendingRequests S))) :=
  match r with
  | Except.error e => Except.error e
  | Except.ok Async.notReady => Except.ok Async.notReady
  | Except.ok (Async.ready (Change.insert k svc)) =>
      Except.ok (Async.ready
        (Change.insert k ((PendingRequests.new svc).with_instrument wpr.instrumentM)))
  | Except.ok (Async.ready (Change.remove k)) =>
      Except.ok (Async.ready (Change.remove k))

/-- `WithPendingRequests` holds no buffer (its only fields are the discover
stream and a `PhantomData`), so a sequence of polls transforms the sequence
of underlying events elementwise, in order. -/
def pollAll {D : Type u} {K : Type v} {S : Type w} {E : Type x}
    (wpr : WithPendingRequests D) (rs : List (Except E (Async (Change K S)))) :
    List (Except E (Async (Change K (PendingRequests S)))) :=
  rs.map wpr.poll

end WithPendingRequests

/-! ### Lifecycle state machine

The dynamics of the shared cell.  A state tracks the strong count of the
`Arc` together with how many live `Handle`s sit inside not-yet-resolved
`InstrumentFuture`s (`pending`) and how many were handed to the caller by a
pass-through instrument (`retained`).  Each event below is an operation of
the source, its effect on the strong count dictated by `Arc` clone/drop
semantics. -/

/-- State of one decorated endpoint's shared cell: `cell` is the `Arc`
strong count; `pending` counts live futures each owning one `Handle`;
`retained` counts handles returned to the caller and still alive. -/
structure SysState where
  cell : Nat
  pending : Nat
  retained : Nat
deriving DecidableEq, Repr

/-- State right after `PendingRequests::new`: the decorator's own reference
only (strong count `RefCount::default() = 1`), no futures, no retained
handles. -/
def initState : SysState :=
  ⟨RefCount.default, 0, 0⟩

/-- Operations on a decorated endpoint that touch the shared cell:
`call` dispatches a request (lines 106-108); `resolve` polls a pending
future to completion, invoking the instrument; `dropPending` drops a
pending future before it resolves; `dropRetained` drops a handle the
caller kept; `readLoad` calls `load()` (lines 86-89). -/
inductive Event : Type
  | call : Event
  | resolve : Event
  | dropPending : Event
  | dropRetained : Event
  | readLoad : Event
deriving DecidableEq, Repr

/-- Modelled from the spec: the effect of each operation, with the
completion behaviour of the missing `InstrumentFuture`/`NoInstrument`
taken from spec section 4.2.  `call` clones the cell into a fresh `Handle`
(line 107 via `handle()`, line 75).  `resolve` invokes the instrument once
with the handle: the no-op variant discards it (strong count drops), the
pass-through variant returns it to the caller (count unchanged, handle now
`retained`).  Dropping a pending future drops the handle it owns; dropping
a retained handle drops its `RefCount` clone.  `load` only reads. -/
def step (m : Instrument) (s : SysState) : Event → SysState
  | Event.call => ⟨RefCount.clone s.cell, s.pending + 1, s.retained⟩
  | Event.resolve =>
      match m with
      | Instrument.noInstrument => ⟨RefCount.drop s.cell, s.pending - 1, s.retained⟩
      | Instrument.passThrough => ⟨s.cell, s.pending - 1, s.retained + 1⟩
  | Event.dropPending => ⟨RefCount.drop s.cell, s.pending - 1, s.retained⟩
  | Event.dropRetained => ⟨RefCount.drop s.cell, s.pending, s.retained - 1⟩
  | Event.readLoad => s

/-- An event is enabled in a state: one can only resolve or drop a future
that exists, and only drop a handle that is retained. -/
def validEvent (s : SysState) : Event → Bool
  | Event.call => true
  | Event.resolve => s.pending != 0
  | Event.dropPending => s.pending != 0
  | Event.dropRetained => s.retained != 0
  | Event.readLoad => true

/-- Run a sequence of events. -/
def run (m : Instrument) (s : SysState) : List Event → SysState
  | [] => s
  | e :: t => run m (step m s e) t

/-- Every event of the trace is enabled when it is executed. -/
def validTrace (m : Instrument) (s : SysState) : List Event → Bool
  | [] => true
  | e :: t => validEvent s e && validTrace m (step m s e) t

/-- The value `load()` returns in a given state: `loadFromRefCount` applied
to the current strong count of the shared cell. -/
def SysState.load (s : SysState) : Option Count :=
  loadFromRefCount (RefCount.ref_count s.cell)

/-- Number of `call` (dispatch) events in a trace. -/
def countCalls : List Event → Nat
  | [] => 0
  | Event.call :: t => countCalls t + 1
  | _ :: t => countCalls t

/-- Number of completions in a trace: futures resolved or dropped. -/
def countCompletions : List Event → Nat
  | [] => 0
  | Event.resolve :: t => countCompletions t + 1
  | Event.dropPending :: t => countCompletions t + 1
  | _ :: t => countCompletions t

/-! ### Invariants of the state machine -/

/-- One enabled step preserves the accounting invariant: the strong count
is one (the decorator's baseline reference) plus the number of live
handles (pending futures plus retained handles). -/
theorem step_invariant (m : Instrument) (s : SysState) (e : Event)
    (h : s.cell = 1 + s.pending + s.retained) (hv : validEvent s e = true) :
    (step m s e).cell = 1 + (step m s e).pending + (step m s e).retained := by
  cases e with
  | call =>
      dsimp only [step, RefCount.clone]
      omega
  | resolve =>
      simp only [validEvent, bne_iff_ne, ne_eq] at hv
      cases m with
      | noInstrument =>
          dsimp only [step, RefCount.drop]
          omega
      | passThrough =>
          dsimp only [step]
          omega
  | dropPending =>
      simp only [validEvent, bne_iff_ne, ne_eq] at hv
      dsimp only [step, RefCount.drop]
      omega
  | dropRetained =>
      simp only [validEvent, bne_iff_ne, ne_eq] at hv
      dsimp only [step, RefCount.drop]
      omega
  | readLoad =>
      exact h

/-- The accounting invariant holds along every valid trace. -/
theorem run_invariant (m : Instrument) :
    ∀ (t : List Event) (s : SysState),
      s.cell = 1 + s.pending + s.retained →
      validTrace m s t = true →
      (run m s t).cell = 1 + (run m s t).pending + (run m s t).retained := by
  intro t
  induction t with
  | nil =>
      intro s h _
      exact h
  | cons e t ih =>
      intro s h hv
      simp only [validTrace, Bool.and_eq_true] at hv
      exact ih (step m s e) (step_invariant m s e h hv.1) hv.2

/-- Under the no-op instrument no handle is ever retained, and the pending
count evolves by +1 per dispatch and -1 per completion: bookkeeping stated
additively so that it needs no subtraction. -/
theorem run_noop_count :
    ∀ (t : List Event) (s : SysState),
      s.cell = 1 + s.pending → s.retained = 0 →
      validTrace Instrument.noInstrument s t = true →
      (run Instrument.noInstrument s t).retained = 0 ∧
      (run Instrument.noInstrument s t).cell =
        1 + (run Instrument.noInstrument s t).pending ∧
      (run Instrument.noInstrument s t).pending + countCompletions t =
        s.pending + countCalls t := by
  intro t
  induction t with
  | nil =>
      intro s hc hr _
      exact ⟨hr, hc, rfl⟩
  | cons e t ih =>
      intro s hc hr hv
      simp only [validTrace, Bool.and_eq_true] at hv
      obtain ⟨hve, hvt⟩ := hv
      cases e with
      | call =>
          obtain ⟨h1, h2, h3⟩ :=
            ih (step Instrument.noInstrument s Event.call)
              (by dsimp only [step, RefCount.clone]; omega)
              (by dsimp only [step]; exact hr) hvt
          refine ⟨h1, h2, ?_⟩
          rw [show (step Instrument.noInstrument s Event.call).pending
                = s.pending + 1 from rfl] at h3
          simp only [run, countCalls, countCompletions]
          omega
      | resolve =>
          simp only [validEvent, bne_iff_ne, ne_eq] at hve
          obtain ⟨h1, h2, h3⟩ :=
            ih (step Instrument.noInstrument s Event.resolve)
              (by dsimp only [step, RefCount.drop]; omega)
              (by dsimp only [step]; exact hr) hvt
          refine ⟨h1, h2, ?_⟩
          rw [show (step Instrument.noInstrument s Event.resolve).pending
                = s.pending - 1 from rfl] at h3
          simp only [run, countCalls, countCompletions]
          omega
      | dropPending =>
          simp only [validEvent, bne_iff_ne, ne_eq] at hve
          obtain ⟨h1, h2, h3⟩ :=
            ih (step Instrument.noInstrument s Event.dropPending)
              (by dsimp only [step, RefCount.drop]; omega)
              (by dsimp only [step]; exact hr) hvt
          refine ⟨h1, h2, ?_⟩
          rw [show (step Instrument.noInstrument s Event.dropPending).pending
                = s.pending - 1 from rfl] at h3
          simp only [run, countCalls, countCompletions]
          omega
      | dropRetained =>
          simp only [validEvent, bne_iff_ne, ne_eq] at hve
          exact absurd hr hve
      | readLoad =>
          have hstep : step Instrument.noInstrument s Event.readLoad = s := rfl
          obtain ⟨h1, h2, h3⟩ :=
            ih (step Instrument.noInstrument s Event.readLoad) hc hr hvt
          refine ⟨h1, h2, ?_⟩
          rw [hstep] at h3
          simp only [run, hstep, countCalls, countCompletions]
          omega

/-- In any state whose strong count is positive, `load()` succeeds and
returns the count minus one. -/
theorem load_of_pos (s : SysState) (h : 1 ≤ s.cell) :
    s.load = some ⟨s.cell - 1⟩ := by
  simp only [SysState.load, loadFromRefCount, RefCount.ref_count]
  rw [if_neg (by omega)]

/-! ### Claims -/

/-- C1 counterexample: at a reference count read as 0, `load()` does not
return `Count(0)` — the plain `usize` subtraction `ref_count() - 1`
underflows (modelled as `none`); there is no saturating protection in the
code. -/
theorem load_at_zero_not_zero :
    PendingRequests.load
        (⟨(), 0, Instrument.noInstrument⟩ : PendingRequests Unit) ≠
      some ⟨0⟩ := by
  decide

/-- C1 (amended): `load()` is the unprotected subtraction `ref_count() - 1`;
at count 0 it underflows rather than returning 0.  It is well-defined and
equal to `count - 1` whenever the count is at least 1, and every state
reachable through the API keeps the decorator's own baseline reference
alive, so the count is always at least 1 and `load()` never underflows in
reachable states. -/
theorem load_never_underflows_reachable {S : Type u} (p : PendingRequests S)
    (m : Instrument) (t : List Event)
    (hp : 1 ≤ p.ref_count) (hv : validTrace m initState t = true) :
    p.load = some ⟨p.ref_count - 1⟩ ∧
    loadFromRefCount 0 = none ∧
    1 ≤ (run m initState t).cell ∧
    (run m initState t).load = some ⟨(run m initState t).cell - 1⟩ := by
  have hinv := run_invariant m t initState rfl hv
  refine ⟨?_, rfl, by omega, load_of_pos _ (by omega)⟩
  simp only [PendingRequests.load, loadFromRefCount, RefCount.ref_count]
  rw [if_neg (by omega)]

/-- Witness for C1 (amended) at `p = ⟨(), 1, noInstrument⟩`, `t = [call]`. -/
theorem load_never_underflows_reachable_witness :
    (1 ≤ (1 : Nat) ∧
        validTrace Instrument.noInstrument initState [Event.call] = true) ∧
    (PendingRequests.load
          (⟨(), 1, Instrument.noInstrument⟩ : PendingRequests Unit) =
        some ⟨0⟩ ∧
      loadFromRefCount 0 = none ∧
      1 ≤ (run Instrument.noInstrument initState [Event.call]).cell ∧
      (run Instrument.noInstrument initState [Event.call]).load =
        some ⟨(run Instrument.noInstrument initState [Event.call]).cell - 1⟩) :=
  ⟨⟨by decide, by decide⟩,
    load_never_underflows_reachable
      (⟨(), 1, Instrument.noInstrument⟩ : PendingRequests Unit)
      Instrument.noInstrument [Event.call] (by decide) (by decide)⟩

/-- C2: with the no-op instrument, along every valid trace the number of
completions `M` never exceeds the number of dispatches `N`, `load()` starts
at `Count(0)` right after construction, equals exactly `Count(N - M)` after
the trace, and returns to `Count(0)` once every dispatch has completed. -/
theorem load_counts_pending (t : List Event)
    (hv : validTrace Instrument.noInstrument initState t = true) :
    countCompletions t ≤ countCalls t ∧
    initState.load = some ⟨0⟩ ∧
    (run Instrument.noInstrument initState t).load =
      some ⟨countCalls t - countCompletions t⟩ ∧
    (countCompletions t = countCalls t →
      (run Instrument.noInstrument initState t).load = some ⟨0⟩) := by
  obtain ⟨h1, h2, h3⟩ := run_noop_count t initState rfl rfl hv
  rw [show initState.pending = 0 from rfl] at h3
  have hM : countCompletions t ≤ countCalls t := by omega
  have hpend : (run Instrument.noInstrument initState t).pending =
      countCalls t - countCompletions t := by omega
  have hload : (run Instrument.noInstrument initState t).load =
      some ⟨countCalls t - countCompletions t⟩ := by
    rw [load_of_pos _ (by omega)]
    exact congrArg some (congrArg Count.mk (by omega))
  refine ⟨hM, rfl, hload, fun hEq => ?_⟩
  rw [hload, hEq, Nat.sub_self]

/-- Witness for C2 at the trace `[call, call, resolve]`: two dispatches,
one completion, load `Count(1)`. -/
theorem load_counts_pending_witness :
    validTrace Instrument.noInstrument initState
        [Event.call, Event.call, Event.resolve] = true ∧
    (countCompletions [Event.call, Event.call, Event.resolve] ≤
        countCalls [Event.call, Event.call, Event.resolve] ∧
      initState.load = some ⟨0⟩ ∧
      (run Instrument.noInstrument initState
          [Event.call, Event.call, Event.resolve]).load = some ⟨1⟩ ∧
      (countCompletions [Event.call, Event.call, Event.resolve] =
          countCalls [Event.call, Event.call, Event.resolve] →
        (run Instrument.noInstrument initState
            [Event.call, Event.call, Event.resolve]).load = some ⟨0⟩)) :=
  ⟨by decide, load_counts_pending [Event.call, Event.call, Event.resolve]
    (by decide)⟩

/-- C3: dropping a pending future is the very same state change as letting
it resolve under the no-op instrument: the `Handle` owned by the future is
destroyed (the strong count drops by one) and `load()` decreases by exactly
one. -/
theorem dropPending_eq_resolve (s : SysState)
    (hinv : s.cell = 1 + s.pending + s.retained) (hp : s.pending = 1) :
    step Instrument.noInstrument s Event.dropPending =
      step Instrument.noInstrument s Event.resolve ∧
    (step Instrument.noInstrument s Event.dropPending).cell = s.cell - 1 ∧
    s.load = some ⟨s.retained + 1⟩ ∧
    (step Instrument.noInstrument s Event.dropPending).load =
      some ⟨s.retained⟩ := by
  refine ⟨rfl, rfl, ?_, ?_⟩
  · rw [load_of_pos s (by omega)]
    exact congrArg some (congrArg Count.mk (by omega))
  · have hcell : (step Instrument.noInstrument s Event.dropPending).cell =
        s.cell - 1 := rfl
    rw [load_of_pos _ (by rw [hcell]; omega), hcell]
    exact congrArg some (congrArg Count.mk (by omega))

/-- Witness for C3 at `s = ⟨2, 1, 0⟩`: one outstanding dispatch. -/
theorem dropPending_eq_resolve_witness :
    ((⟨2, 1, 0⟩ : SysState).cell = 1 + (⟨2, 1, 0⟩ : SysState).pending +
        (⟨2, 1, 0⟩ : SysState).retained ∧
      (⟨2, 1, 0⟩ : SysState).pending = 1) ∧
    (step Instrument.noInstrument ⟨2, 1, 0⟩ Event.dropPending =
        step Instrument.noInstrument ⟨2, 1, 0⟩ Event.resolve ∧
      (step Instrument.noInstrument ⟨2, 1, 0⟩ Event.dropPending).cell = 1 ∧
      SysState.load ⟨2, 1, 0⟩ = some ⟨1⟩ ∧
      (step Instrument.noInstrument ⟨2, 1, 0⟩ Event.dropPending).load =
        some ⟨0⟩) :=
  ⟨⟨by decide, by decide⟩,
    dropPending_eq_resolve ⟨2, 1, 0⟩ (by decide) (by decide)⟩

/-- C4: with the pass-through instrument, resolving a pending future keeps
the strong count (the handle is returned to the caller), so `load()` stays
elevated; dropping a retained handle lowers `load()` by exactly one; and
the concrete scenario of the source test `instrumented` holds: dispatch
twice, resolve both — load `Count(2)`; drop one retained handle — load
`Count(1)`; drop the other — load `Count(0)`. -/
theorem passThrough_retains_load (s : SysState)
    (hinv : s.cell = 1 + s.pending + s.retained) :
    (0 < s.pending →
      (step Instrument.passThrough s Event.resolve).load = s.load) ∧
    (0 < s.retained →
      s.load = some ⟨s.pending + s.retained⟩ ∧
      (step Instrument.passThrough s Event.dropRetained).load =
        some ⟨s.pending + s.retained - 1⟩) ∧
    validTrace Instrument.passThrough initState
        [Event.call, Event.call, Event.resolve, Event.resolve,
          Event.dropRetained, Event.dropRetained] = true ∧
    (run Instrument.passThrough initState
        [Event.call, Event.call, Event.resolve, Event.resolve]).load =
      some ⟨2⟩ ∧
    (run Instrument.passThrough initState
        [Event.call, Event.call, Event.resolve, Event.resolve,
          Event.dropRetained]).load = some ⟨1⟩ ∧
    (run Instrument.passThrough initState
        [Event.call, Event.call, Event.resolve, Event.resolve,
          Event.dropRetained, Event.dropRetained]).load = some ⟨0⟩ := by
  refine ⟨fun _ => rfl, fun hr => ⟨?_, ?_⟩, by decide, by decide, by decide,
    by decide⟩
  · rw [load_of_pos s (by omega)]
    exact congrArg some (congrArg Count.mk (by omega))
  · have hcell : (step Instrument.passThrough s Event.dropRetained).cell =
        s.cell - 1 := rfl
    rw [load_of_pos _ (by rw [hcell]; omega), hcell]
    exact congrArg some (congrArg Count.mk (by omega))

/-- Witness for C4 at `s = ⟨3, 1, 1⟩`: one pending future and one retained
handle. -/
theorem passThrough_retains_load_witness :
    ((⟨3, 1, 1⟩ : SysState).cell = 1 + (⟨3, 1, 1⟩ : SysState).pending +
        (⟨3, 1, 1⟩ : SysState).retained) ∧
    ((0 < (⟨3, 1, 1⟩ : SysState).pending →
        (step Instrument.passThrough ⟨3, 1, 1⟩ Event.resolve).load =
          SysState.load ⟨3, 1, 1⟩) ∧
      (0 < (⟨3, 1, 1⟩ : SysState).retained →
        SysState.load ⟨3, 1, 1⟩ = some ⟨2⟩ ∧
        (step Instrument.passThrough ⟨3, 1, 1⟩ Event.dropRetained).load =
          some ⟨1⟩) ∧
      validTrace Instrument.passThrough initState
          [Event.call, Event.call, Event.resolve, Event.resolve,
            Event.dropRetained, Event.dropRetained] = true ∧
      (run Instrument.passThrough initState
          [Event.call, Event.call, Event.resolve, Event.resolve]).load =
        some ⟨2⟩ ∧
      (run Instrument.passThrough initState
          [Event.call, Event.call, Event.resolve, Event.resolve,
            Event.dropRetained]).load = some ⟨1⟩ ∧
      (run Instrument.passThrough initState
          [Event.call, Event.call, Event.resolve, Event.resolve,
            Event.dropRetained, Event.dropRetained]).load = some ⟨0⟩) :=
  ⟨by decide, passThrough_retains_load ⟨3, 1, 1⟩ (by decide)⟩

/-- C5: an underlying `Insert(k, svc)` is re-emitted as `Insert` with the
same key and the endpoint wrapped by `PendingRequests::new(svc)` followed
by `with_instrument` with the configured strategy; the fresh decorated
endpoint has `load() = Count(0)`, carries the configured instrumentation
variant and the discovered service; an underlying `Remove(k)` is re-emitted
unchanged. -/
theorem poll_insert_fresh_remove_unchanged {D : Type u} {K : Type v}
    {S : Type w} {E : Type x}
    (wpr : WithPendingRequests D) (k : K) (svc : S) :
    wpr.poll (Except.ok (Async.ready (Change.insert k svc)) :
        Except E (Async (Change K S))) =
      Except.ok (Async.ready (Change.insert k
        ((PendingRequests.new svc).with_instrument wpr.instrumentM))) ∧
    ((PendingRequests.new svc).with_instrument wpr.instrumentM).load =
      some ⟨0⟩ ∧
    ((PendingRequests.new svc).with_instrument wpr.instrumentM).instrumentM =
      wpr.instrumentM ∧
    ((PendingRequests.new svc).with_instrument wpr.instrumentM).service =
      svc ∧
    ((PendingRequests.new svc).with_instrument wpr.instrumentM).ref_count =
      RefCount.default ∧
    wpr.poll (Except.ok (Async.ready (Change.remove k)) :
        Except E (Async (Change K S))) =
      Except.ok (Async.ready (Change.remove k)) :=
  ⟨rfl, rfl, rfl, rfl, rfl, rfl⟩

/-- C6: the discovery decorator's poll propagates an error of the
underlying stream unchanged (same error value, and by the type of `poll`
the same error type, with no new variant), propagates `NotReady`
unchanged, and transforms event sequences one-for-one, in order: the empty
sequence maps to the empty sequence, a sequence of `n + 1` events maps to
the transform of the head followed by the transform of the tail, and the
output length always equals the input length — nothing is reordered,
merged, or dropped. -/
theorem poll_error_transparent_one_to_one {D : Type u} {K : Type v}
    {S : Type w} {E : Type x}
    (wpr : WithPendingRequests D) (e : E)
    (x : Except E (Async (Change K S)))
    (xs : List (Except E (Async (Change K S)))) :
    wpr.poll (Except.error e : Except E (Async (Change K S))) =
      Except.error e ∧
    wpr.poll (Except.ok Async.notReady : Except E (Async (Change K S))) =
      Except.ok Async.notReady ∧
    wpr.pollAll ([] : List (Except E (Async (Change K S)))) = [] ∧
    wpr.pollAll (x :: xs) = wpr.poll x :: wpr.pollAll xs ∧
    (wpr.pollAll xs).length = xs.length :=
  ⟨rfl, rfl, rfl, rfl, by simp [WithPendingRequests.pollAll]⟩

/-- C7: `poll_ready` of the decorated endpoint returns precisely what the
inner service's `poll_ready` returns, updates only the inner service, and
leaves the shared cell's count — hence `load()` — and the instrumentation
variant unchanged. -/
theorem poll_ready_delegates {S : Type u} {E : Type v}
    (inner : S → Except E (Async Unit) × S) (p : PendingRequests S) :
    (PendingRequests.poll_ready inner p).1 = (inner p.service).1 ∧
    (PendingRequests.poll_ready inner p).2.service = (inner p.service).2 ∧
    (PendingRequests.poll_ready inner p).2.ref_count = p.ref_count ∧
    (PendingRequests.poll_ready inner p).2.instrumentM = p.instrumentM ∧
    (PendingRequests.poll_ready inner p).2.load = p.load :=
  ⟨rfl, rfl, rfl, rfl, rfl⟩

/-- C8: `load()` is a pure read: as an event of the state machine it is the
identity on the state, so the value it returns is always the metric derived
from the current strong count; in state-passing form (`&self`) it returns
the receiver unchanged, and two consecutive calls with no intervening
handle creation or destruction return the same value. -/
theorem load_pure_read {S : Type u} (m : Instrument) (s : SysState)
    (p : PendingRequests S) :
    step m s Event.readLoad = s ∧
    (step m s Event.readLoad).load = s.load ∧
    (run m s [Event.readLoad, Event.readLoad]).load = s.load ∧
    p.loadOp = (p.load, p) ∧
    p.loadOp.2 = p ∧
    p.loadOp.2.loadOp.1 = p.loadOp.1 ∧
    p.load = loadFromRefCount (RefCount.ref_count p.ref_count) :=
  ⟨rfl, rfl, rfl, rfl, rfl, rfl, rfl⟩

/-- C10: `with_instrument` moves the same inner service and the same shared
cell (same strong count, so handles outstanding against the cell still
count toward the metric) into the reconfigured decorator, which therefore
reports the same `load()`; likewise `WithPendingRequests::instrument` keeps
the same discover stream and records the new variant. -/
theorem with_instrument_preserves_cell {S : Type u} {D : Type v}
    (p : PendingRequests S) (m : Instrument)
    (w : WithPendingRequests D) (m2 : Instrument) :
    (p.with_instrument m).service = p.service ∧
    (p.with_instrument m).ref_count = p.ref_count ∧
    (p.with_instrument m).load = p.load ∧
    (p.with_instrument m).instrumentM = m ∧
    (w.instrument m2).discover = w.discover ∧
    (w.instrument m2).instrumentM = m2 :=
  ⟨rfl, rfl, rfl, rfl, rfl, rfl⟩

end Tower
